import Mathlib

/-!
Verification of the LexMap scanner policy-resolution layer.

The definitions below are a shallow embedding of the two scanner sources
(`python_scanner.py` and `php_scanner.py`): the policy data model, the
ownership resolver (`resolve_file_to_module`), the two dependency resolvers
(`resolve_import_to_module`, `resolve_namespace_to_module`), the per-file
scan step with cross-module edge construction, the scan fold, the policy
loader, and the regex-based feature-flag / permission extraction.

Modelling conventions:
- Python strings are Lean `String`; `str.replace`, `str.startswith` and the
  stdlib `fnmatch.fnmatch` are re-implemented below over `List Char`
  (fuel-driven structural recursion, so every definition computes in the
  kernel).  On POSIX, `fnmatch` does no case folding, which is what is
  modelled.  The `\w` and `\s` regex classes are modelled over ASCII.
- The loaded policy (`self.policy`) is `Option Policy`; `none` models both
  a missing policy and a falsy loaded document.  A loaded document whose
  `modules` mapping is present is `some p`; a document lacking the mapping
  behaves like `none` in `resolve_file_to_module` (the source would raise
  in `resolve_import_to_module` for such a document, a corner outside the
  claims and outside this embedding).
- File reading and `ast.parse` are external effects; a Python file is
  modelled by its read/parse outcome (`PyParse`), carrying the AST-derived
  declaration and import lists abstractly.  PHP extraction is pure regex
  over the content and is embedded directly.
-/

/-! ## Character classes and basic string machinery -/

/-- The regex class `\w`, modelled over ASCII: letters, digits, underscore. -/
def isWordChar (c : Char) : Bool := c.isAlphanum || c == '_'

/-- The regex class `\s`, modelled over ASCII whitespace. -/
def isWsChar (c : Char) : Bool :=
  c == ' ' || c == '\t' || c == '\n' || c == '\r' || c == Char.ofNat 11 || c == Char.ofNat 12

/-- The regex class `[\w\\]` used by the PHP scanner. -/
def isWordBsChar (c : Char) : Bool := isWordChar c || c == Char.ofNat 92

/-- Embedding of Python `str.startswith`. -/
def startswith (pre s : String) : Bool := pre.data.isPrefixOf s.data

/-- Inner loop of `replaceAll`; `fuel` bounds the number of steps.  The
pattern is assumed nonempty, so every step consumes at least one character
and `fuel = length` suffices. -/
def replaceGo (patd repd : List Char) : Nat → List Char → List Char
  | 0, l => l
  | _, [] => []
  | fuel + 1, c :: rest =>
    if patd.isPrefixOf (c :: rest) then
      repd ++ replaceGo patd repd fuel ((c :: rest).drop patd.length)
    else
      c :: replaceGo patd repd fuel rest

/-- Embedding of Python `str.replace`: replace every non-overlapping
occurrence of `pat` in `s` by `rep`, scanning left to right.  (The source
never calls `replace` with an empty pattern; that case is left as the
identity here.) -/
def replaceAll (s pat rep : String) : String :=
  if pat.data.isEmpty then s
  else String.mk (replaceGo pat.data rep.data s.data.length s.data)

/-! ## `fnmatch` (Python stdlib shell-glob matching, POSIX behavior)

`fnmatch.fnmatch(name, pattern)` translates the pattern to a regular
expression and full-matches the name: `*` matches any character sequence
(including `/`), `?` any single character, `[...]` a character set with
ranges and `!` negation; a `[` with no closing `]` is a literal. -/

/-- Scan the body of a `[...]` set up to the closing `]`.  Returns the set
body and the remainder of the pattern, or `none` when there is no closing
bracket. -/
def scanSetBody : List Char → Option (List Char × List Char)
  | [] => none
  | c :: rest =>
    if c == ']' then some ([], rest)
    else
      match scanSetBody rest with
      | some (body, rem) => some (c :: body, rem)
      | none => none

/-- Parse a character set after an opening `[`: an optional leading `!`
negates; a `]` directly after `[` (or `[!`) is a literal member. -/
def parseSet (cs : List Char) : Option (Bool × List Char × List Char) :=
  match cs with
  | [] => none
  | c :: rest =>
    if c == '!' then
      match rest with
      | [] => none
      | d :: rest2 =>
        if d == ']' then (scanSetBody rest2).map (fun pr => (true, d :: pr.1, pr.2))
        else (scanSetBody rest).map (fun pr => (true, pr.1, pr.2))
    else if c == ']' then (scanSetBody rest).map (fun pr => (false, c :: pr.1, pr.2))
    else (scanSetBody cs).map (fun pr => (false, pr.1, pr.2))

/-- Membership of a character in a parsed set body: `a-b` is a code-point
range (a trailing `-` is a literal), anything else a literal member. -/
def setMatches : List Char → Char → Bool
  | [], _ => false
  | [a], c => a == c
  | [a, b], c => a == c || b == c
  | a :: b :: d :: rest, c =>
    if b == '-' then (decide (a ≤ c) && decide (c ≤ d)) || setMatches rest c
    else a == c || setMatches (b :: d :: rest) c

/-- Fuel-driven glob matcher.  Every recursive call decreases the combined
length of pattern and name by at least one, so fuel `|pat| + |name| + 1`
makes the fuel-exhausted branch unreachable. -/
def matchPatF : Nat → List Char → List Char → Bool
  | 0, _, _ => false
  | _ + 1, [], s => s.isEmpty
  | fuel + 1, p :: ps, s =>
    if p == '*' then
      matchPatF fuel ps s ||
        (match s with
         | [] => false
         | _ :: s2 => matchPatF fuel (p :: ps) s2)
    else if p == '?' then
      match s with
      | [] => false
      | _ :: s2 => matchPatF fuel ps s2
    else if p == '[' then
      match parseSet ps with
      | none =>
        match s with
        | c :: s2 => p == c && matchPatF fuel ps s2
        | [] => false
      | some (neg, body, rest) =>
        match s with
        | [] => false
        | c :: s2 =>
          (if neg then !(setMatches body c) else setMatches body c) && matchPatF fuel rest s2
    else
      match s with
      | c :: s2 => p == c && matchPatF fuel ps s2
      | [] => false

/-- Embedding of `fnmatch.fnmatch name pattern` (POSIX: no case folding). -/
def fnmatch (name pat : String) : Bool :=
  matchPatF (pat.data.length + name.data.length + 1) pat.data name.data

/-! ## Policy data model -/

/-- One entry of the `modules` mapping.  In the JSON document both lists are
optional; `module_config.get("owns_paths", [])` makes an absent key the empty
list, so the fields are total here. -/
structure ModuleConfig where
  owns_paths : List String
  owns_namespaces : List String
deriving Repr, DecidableEq

/-- The loaded policy document: its `modules` mapping, as an
insertion-ordered association list (Python dictionaries preserve insertion
order). -/
structure Policy where
  modules : List (String × ModuleConfig)
deriving Repr, DecidableEq

/-! ## Ownership resolver (`resolve_file_to_module`, identical in both scanners) -/

/-- Inner pattern loop of `resolve_file_to_module`: first matching
`owns_paths` pattern wins.  Each pattern is normalized to forward slashes
before matching. -/
def globLoop (np : String) : List String → Bool
  | [] => false
  | pat :: rest =>
    if fnmatch np (replaceAll pat "\\" "/") then true else globLoop np rest

/-- Outer module loop of `resolve_file_to_module`: modules in insertion
order, returning the first whose pattern loop succeeds. -/
def resolveLoop (np : String) : List (String × ModuleConfig) → Option String
  | [] => none
  | (mid, cfg) :: rest =>
    if globLoop np cfg.owns_paths then some mid else resolveLoop np rest

/-- Embedding of `resolve_file_to_module`: normalize the path to forward
slashes, then first-match-wins over modules and their `owns_paths`. -/
def resolve_file_to_module (pol : Option Policy) (file_path : String) : Option String :=
  match pol with
  | none => none
  | some p => resolveLoop (replaceAll file_path "\\" "/") p.modules

/-! ## Dependency resolvers -/

/-- The prefix the Python scanner derives from an `owns_paths` glob:
`pattern.replace("/**", "").replace("/*", "")` — every occurrence of the
two wildcard substrings is removed, not only trailing ones. -/
def stripWildcards (pat : String) : String :=
  replaceAll (replaceAll pat "/**" "") "/*" ""

/-- Inner pattern loop of `resolve_import_to_module`. -/
def stripLoop (ip : String) : List String → Bool
  | [] => false
  | pat :: rest =>
    if startswith (stripWildcards pat) ip then true else stripLoop ip rest

/-- Outer module loop of `resolve_import_to_module`. -/
def importLoop (ip : String) : List (String × ModuleConfig) → Option String
  | [] => none
  | (mid, cfg) :: rest =>
    if stripLoop ip cfg.owns_paths then some mid else importLoop ip rest

/-- Embedding of the Python scanner `resolve_import_to_module`: `none` on an
empty import or absent policy, otherwise rewrite dots to slashes and take the
first module one of whose stripped `owns_paths` prefixes is a literal string
prefix of the rewritten import. -/
def resolve_import_to_module (import_path : String) (pol : Option Policy) : Option String :=
  if import_path = "" then none
  else
    match pol with
    | none => none
    | some p => importLoop (replaceAll import_path "." "/") p.modules

/-- Inner pattern loop of `resolve_namespace_to_module`: each
`owns_namespaces` entry has its escaped double backslashes collapsed to
single ones before the literal prefix test. -/
def nsPatLoop (ns : String) : List String → Bool
  | [] => false
  | q :: rest =>
    if startswith (replaceAll q "\\\\" "\\") ns then true else nsPatLoop ns rest

/-- Outer module loop of `resolve_namespace_to_module`. -/
def nsLoop (ns : String) : List (String × ModuleConfig) → Option String
  | [] => none
  | (mid, cfg) :: rest =>
    if nsPatLoop ns cfg.owns_namespaces then some mid else nsLoop ns rest

/-- Embedding of the PHP scanner `resolve_namespace_to_module`. -/
def resolve_namespace_to_module (ns : String) (pol : Option Policy) : Option String :=
  if ns = "" then none
  else
    match pol with
    | none => none
    | some p => nsLoop ns p.modules

/-! ## Mini regex engine for the concrete extraction patterns

Each scanner regex starts with a literal (or `$` followed by `\w+`), so a
direct left-to-right scanner with greedy character-class runs is exact for
these patterns: the classes `\w+` / `[\w\\]+` / `\s+` are never followed by
a character of the same class, so no backtracking into a run can succeed. -/

/-- Match a literal character sequence, returning the remainder. -/
def eatLit : List Char → List Char → Option (List Char)
  | [], s => some s
  | _ :: _, [] => none
  | c :: cs, d :: s => if c == d then eatLit cs s else none

/-- Match the class `[\'"]` (either quote character). -/
def eatQuote : List Char → Option (List Char)
  | [] => none
  | c :: s => if c == '"' || c == Char.ofNat 39 then some s else none

/-- Greedy `class+`: one or more characters satisfying `p`, returning the
captured run and the remainder. -/
def takeWhile1 (p : Char → Bool) : List Char → Option (List Char × List Char)
  | [] => none
  | c :: rest =>
    if p c then some (c :: rest.takeWhile p, rest.dropWhile p) else none

/-- Greedy `\s+`. -/
def eatWs1 (s : List Char) : Option (List Char) := do
  let (_, rest) ← takeWhile1 isWsChar s
  pure rest

/-- The suffix `[\'"](\w+)[\'"]` followed by a closing character, shared by
most extraction patterns. -/
def quoteWordClose (closer : Char) (s : List Char) : Option (String × List Char) := do
  let s1 ← eatQuote s
  let (w, s2) ← takeWhile1 isWordChar s1
  let s3 ← eatQuote s2
  let s4 ← eatLit [closer] s3
  pure (String.mk w, s4)

/-- A pattern of the shape `<literal>[\'"](\w+)[\'"]<closer>`. -/
def tryLitQWC (lit : String) (closer : Char) (s : List Char) : Option (String × List Char) := do
  let s1 ← eatLit lit.data s
  quoteWordClose closer s1

/-- A pattern of the shape `\$\w+<literal>[\'"](\w+)[\'"]\)` (the PHP
`$var->method('name')` patterns). -/
def tryDollarCall (mid : String) (s : List Char) : Option (String × List Char) := do
  let s1 ← eatLit ["$".get 0] s
  let (_, s2) ← takeWhile1 isWordChar s1
  let s3 ← eatLit mid.data s2
  quoteWordClose ')' s3

/-- The PHP pattern `config\([\'"]features\.(\w+)[\'"]\)`. -/
def tryConfigFeature (s : List Char) : Option (String × List Char) := do
  let s1 ← eatLit "config(".data s
  let s2 ← eatQuote s1
  let s3 ← eatLit "features.".data s2
  let (w, s4) ← takeWhile1 isWordChar s3
  let s5 ← eatQuote s4
  let s6 ← eatLit ")".data s5
  pure (String.mk w, s6)

/-- `re.finditer` driver: at each position try the matcher; on success emit
the capture and continue after the match, otherwise advance one character.
Every matcher consumes at least one character on success, so fuel equal to
the input length suffices. -/
def findIter {α : Type} (m : List Char → Option (α × List Char)) : Nat → List Char → List α
  | 0, _ => []
  | _, [] => []
  | fuel + 1, c :: rest =>
    match m (c :: rest) with
    | some (a, rem) => a :: findIter m fuel rem
    | none => findIter m fuel rest

/-- Run a matcher over a whole string, `re.finditer` style. -/
def scanCaps {α : Type} (m : List Char → Option (α × List Char)) (content : String) : List α :=
  findIter m content.data.length content.data

/-! ## `sorted(list(set(...)))` -/

/-- Insert into a strictly sorted list, skipping an element already
present. -/
def insortNoDup (a : String) : List String → List String
  | [] => [a]
  | b :: l =>
    if a < b then a :: b :: l
    else if a = b then b :: l
    else b :: insortNoDup a l

/-- Embedding of Python `sorted(list(set(l)))`: the strictly sorted list of
the distinct elements of `l` (Python sorts strings lexicographically by code
point, which is the `String` order used here). -/
def sortedDedup (l : List String) : List String := l.foldr insortNoDup []

/-! ## Feature-flag and permission extraction -/

/-- Embedding of the Python scanner `extract_feature_flags`: the three
regexes `feature_flags\.is_enabled\(...)`, `FeatureFlags\.enabled\(...)` and
`settings\.FEATURES\[...\]`, collected into a set and sorted. -/
def extract_feature_flags (content : String) : List String :=
  sortedDedup
    (scanCaps (tryLitQWC "feature_flags.is_enabled(" ')') content ++
      scanCaps (tryLitQWC "FeatureFlags.enabled(" ')') content ++
      scanCaps (tryLitQWC "settings.FEATURES[" ']') content)

/-- Embedding of the Python scanner `extract_permissions`: the regexes
`\.has_perm\(...)`, `check_permission\(...)` and
`@permission_required\(...)`, collected into a set and sorted. -/
def extract_permissions (content : String) : List String :=
  sortedDedup
    (scanCaps (tryLitQWC ".has_perm(" ')') content ++
      scanCaps (tryLitQWC "check_permission(" ')') content ++
      scanCaps (tryLitQWC "@permission_required(" ')') content)

/-- Embedding of the PHP scanner `extract_feature_flags`. -/
def php_extract_feature_flags (content : String) : List String :=
  sortedDedup
    (scanCaps (tryLitQWC "FeatureFlags::enabled(" ')') content ++
      scanCaps (tryDollarCall "->isEnabled(") content ++
      scanCaps tryConfigFeature content)

/-- Embedding of the PHP scanner `extract_permissions`. -/
def php_extract_permissions (content : String) : List String :=
  sortedDedup
    (scanCaps (tryDollarCall "->can(") content ++
      scanCaps (tryLitQWC "Gate::allows(" ')') content ++
      scanCaps (tryLitQWC "$this->authorize(" ')') content)

/-! ## PHP import and declaration extraction -/

/-- An import record; only the `from` target (and alias, for PHP use
statements) matter to the resolution layer, so the other fields of the
source dictionaries are not carried. -/
structure ImportRef where
  target : String
  importAlias : Option String
deriving Repr, DecidableEq

/-- The optional `(?:\s+as\s+(\w+))?;` tail of a use statement, with the
terminating semicolon folded in (mirroring the regex backtracking: the
group is tried first, and on failure the bare semicolon must follow). -/
def tryUseAlias (s : List Char) : Option (String × List Char) := do
  let s1 ← eatWs1 s
  let s2 ← eatLit "as".data s1
  let s3 ← eatWs1 s2
  let (a, s4) ← takeWhile1 isWordChar s3
  let s5 ← eatLit ";".data s4
  pure (String.mk a, s5)

/-- The PHP use-statement regex `use\s+([\w\\]+)(?:\s+as\s+(\w+))?;`. -/
def tryUse (s : List Char) : Option (ImportRef × List Char) := do
  let s1 ← eatLit "use".data s
  let s2 ← eatWs1 s1
  let (t, s3) ← takeWhile1 isWordBsChar s2
  match tryUseAlias s3 with
  | some (a, s4) => pure (⟨String.mk t, some a⟩, s4)
  | none => do
    let s4 ← eatLit ";".data s3
    pure (⟨String.mk t, none⟩, s4)

/-- Embedding of the PHP scanner `extract_imports`. -/
def php_extract_imports (content : String) : List ImportRef :=
  scanCaps tryUse content

/-- A PHP declaration record: kind, name, and the enclosing namespace (the
first `namespace ...;` match in the file, if any). -/
structure PhpDecl where
  kind : String
  name : String
  ns : Option String
deriving Repr, DecidableEq

/-- The namespace regex `namespace\s+([\w\\]+);`. -/
def tryNsDecl (s : List Char) : Option (String × List Char) := do
  let s1 ← eatLit "namespace".data s
  let s2 ← eatWs1 s1
  let (n, s3) ← takeWhile1 isWordBsChar s2
  let s4 ← eatLit ";".data s3
  pure (String.mk n, s4)

/-- A `<keyword>\s+(\w+)` declaration regex (`class`, `interface`). -/
def tryKindDecl (kw : String) (s : List Char) : Option (String × List Char) := do
  let s1 ← eatLit kw.data s
  let s2 ← eatWs1 s1
  let (n, s3) ← takeWhile1 isWordChar s2
  pure (String.mk n, s3)

/-- The function regex `function\s+(\w+)\s*\(`. -/
def tryFunctionDecl (s : List Char) : Option (String × List Char) := do
  let s1 ← eatLit "function".data s
  let s2 ← eatWs1 s1
  let (n, s3) ← takeWhile1 isWordChar s2
  let s4 := s3.dropWhile isWsChar
  let s5 ← eatLit "(".data s4
  pure (String.mk n, s5)

/-- Embedding of the PHP scanner `extract_declarations`: `re.search` for the
namespace, then classes, interfaces and functions in that order. -/
def php_extract_declarations (content : String) : List PhpDecl :=
  let ns := (scanCaps tryNsDecl content).head?
  ((scanCaps (tryKindDecl "class") content).map fun n => ⟨"class", n, ns⟩) ++
    ((scanCaps (tryKindDecl "interface") content).map fun n => ⟨"interface", n, ns⟩) ++
    ((scanCaps tryFunctionDecl content).map fun n => ⟨"function", n, ns⟩)

/-! ## Per-file scan and edge construction -/

/-- A Python declaration record (produced by the AST walk, carried
abstractly). -/
structure PyDecl where
  kind : String
  name : String
deriving Repr, DecidableEq

/-- One cross-module dependency edge, as appended to
`self.output["module_edges"]`. -/
structure ModuleEdge where
  from_module : String
  to_module : String
  from_file : String
  import_statement : String
deriving Repr, DecidableEq

/-- The per-file fact record (`file_data`), parametric in the declaration
record type (the two scanners use different shapes).  An absent
`module_scope` key is `none`. -/
structure FileFacts (δ : Type) where
  path : String
  declarations : List δ
  imports : List ImportRef
  feature_flags : List String
  permissions : List String
  warnings : List String
  module_scope : Option String
deriving Repr, DecidableEq

/-- Read/parse outcome of one Python file: the file read failed, `ast.parse`
raised `SyntaxError`, or parsing succeeded with the AST-derived declaration
and import lists (the `from` targets of the import dictionaries). -/
inductive PyParse where
  | readError : PyParse
  | syntaxError (content : String) : PyParse
  | parsed (content : String) (decls : List PyDecl) (imports : List ImportRef) : PyParse
deriving Repr, DecidableEq

/-- Whether a Python file survives both the read and the parse step. -/
def isParsedOk : PyParse → Bool
  | .parsed _ _ _ => true
  | _ => false

/-- The edge loop shared by both `scan_file` bodies: for each import, resolve
its target with the given resolver; `if target_module_id and
target_module_id != module_id` append one edge (Python truthiness: an empty
target module id is falsy and appends nothing). -/
def edgeLoop (res : String → Option String) (mid rp : String) :
    List ImportRef → List ModuleEdge
  | [] => []
  | imp :: rest =>
    (match res imp.target with
     | some t => if t ≠ "" ∧ t ≠ mid then [⟨mid, t, rp, imp.target⟩] else []
     | none => []) ++ edgeLoop res mid rp rest

/-- Embedding of the Python scanner `scan_file`, given the relative path and
the read/parse outcome: an unreadable or unparsable file yields no record
and no edges; otherwise the fact record is built (warnings always empty),
and if a policy is present and the file resolves to a truthy module id, the
module scope is set and the cross-module edges are accumulated. -/
def py_scan_file (pol : Option Policy) (rp : String) (inp : PyParse) :
    Option (FileFacts PyDecl) × List ModuleEdge :=
  match inp with
  | .readError => (none, [])
  | .syntaxError _ => (none, [])
  | .parsed content decls imports =>
    let fd : FileFacts PyDecl :=
      ⟨rp, decls, imports, extract_feature_flags content, extract_permissions content,
        [], none⟩
    match pol with
    | none => (some fd, [])
    | some p =>
      match resolve_file_to_module (some p) rp with
      | none => (some fd, [])
      | some mid =>
        if mid = "" then (some fd, [])
        else
          (some { fd with module_scope := some mid },
            edgeLoop (fun t => resolve_import_to_module t (some p)) mid rp imports)

/-- Embedding of the PHP scanner `scan_file`: only the read can fail (the
extraction is regex based); everything is computed from the content. -/
def php_scan_file (pol : Option Policy) (rp : String) (read : Option String) :
    Option (FileFacts PhpDecl) × List ModuleEdge :=
  match read with
  | none => (none, [])
  | some content =>
    let imports := php_extract_imports content
    let fd : FileFacts PhpDecl :=
      ⟨rp, php_extract_declarations content, imports, php_extract_feature_flags content,
        php_extract_permissions content, [], none⟩
    match pol with
    | none => (some fd, [])
    | some p =>
      match resolve_file_to_module (some p) rp with
      | none => (some fd, [])
      | some mid =>
        if mid = "" then (some fd, [])
        else
          (some { fd with module_scope := some mid },
            edgeLoop (fun t => resolve_namespace_to_module t (some p)) mid rp imports)

/-- The scan report (`self.output`). -/
structure ScanReport (δ : Type) where
  language : String
  files : List (FileFacts δ)
  module_edges : List ModuleEdge
deriving Repr, DecidableEq

/-- The Python scan loop over the (already filtered) file list: each file's
record, when produced, is appended to `files`, and the edges accumulated by
`scan_file` are appended to `module_edges`, in visitation order. -/
def pyScanGo (pol : Option Policy) : List (String × PyParse) → ScanReport PyDecl
  | [] => ⟨"python", [], []⟩
  | f :: rest =>
    let r := py_scan_file pol f.1 f.2
    let rep := pyScanGo pol rest
    ⟨"python", r.1.toList ++ rep.files, r.2 ++ rep.module_edges⟩

/-- Embedding of the Python scanner `scan`. -/
def pyScan (pol : Option Policy) (inputs : List (String × PyParse)) : ScanReport PyDecl :=
  pyScanGo pol inputs

/-- The PHP scan loop; a file is given by its relative path and read outcome. -/
def phpScanGo (pol : Option Policy) : List (String × Option String) → ScanReport PhpDecl
  | [] => ⟨"php", [], []⟩
  | f :: rest =>
    let r := php_scan_file pol f.1 f.2
    let rep := phpScanGo pol rest
    ⟨"php", r.1.toList ++ rep.files, r.2 ++ rep.module_edges⟩

/-- Embedding of the PHP scanner `scan`. -/
def phpScan (pol : Option Policy) (inputs : List (String × Option String)) :
    ScanReport PhpDecl :=
  phpScanGo pol inputs

/-! ## Policy loading (scanner constructor) -/

/-- The possible states of the optional policy-file argument, as
distinguished by the constructor of either scanner. -/
inductive PolicyInput where
  | noPath : PolicyInput
  | missing : PolicyInput
  | unreadable : PolicyInput
  | malformed : PolicyInput
  | loaded (p : Policy) : PolicyInput
deriving Repr, DecidableEq

/-- Embedding of the policy-loading block of both constructors: the loaded
policy (initially `None`) and the number of warnings printed to stderr.  No
path given, or a path that fails `os.path.exists`, silently leaves the
policy absent; an exception while opening or JSON-decoding the file prints
one warning and leaves the policy absent; a successful decode stores the
document. -/
def load_policy : PolicyInput → Option Policy × Nat
  | .noPath => (none, 0)
  | .missing => (none, 0)
  | .unreadable => (none, 1)
  | .malformed => (none, 1)
  | .loaded p => (some p, 0)

/-! ## Claim-side reference definitions

Each of the following is written from the wording of a claim (not from the
source) and is compared with the corresponding source embedding above. -/

/-- Claim C1 wording: normalize the path, iterate modules in insertion order
and patterns in listed order, return the first module one of whose glob
patterns matches the normalized path; `none` when nothing matches. -/
def resolveOwnerFirstMatch (p : Policy) (fp : String) : Option String :=
  p.modules.findSome? fun mc =>
    if mc.2.owns_paths.any
        (fun pat => fnmatch (replaceAll fp "\\" "/") (replaceAll pat "\\" "/")) then
      some mc.1
    else none

/-- Repeatedly strip a trailing `/**` or `/*` wildcard suffix (the stripping
described by the wording of claim C4). -/
def stripTrailGo : Nat → List Char → List Char
  | 0, l => l
  | n + 1, l =>
    if ['*', '*', '/'].isPrefixOf l then stripTrailGo n (l.drop 3)
    else if ['*', '/'].isPrefixOf l then stripTrailGo n (l.drop 2)
    else l

/-- Strip trailing wildcard suffixes from a glob pattern, per the wording of
claim C4. -/
def stripTrailingWildcards (pat : String) : String :=
  String.mk (stripTrailGo pat.data.length pat.data.reverse).reverse

/-- Claim C4 as worded: dots rewritten to slashes, each pattern stripped of
its TRAILING wildcard suffixes, first module (insertion order) whose
stripped prefix is a literal prefix of the rewritten import. -/
def resolveImportClaimed (p : Policy) (ip : String) : Option String :=
  if ip = "" then none
  else
    p.modules.findSome? fun mc =>
      if mc.2.owns_paths.any
          (fun pat => startswith (stripTrailingWildcards pat) (replaceAll ip "." "/")) then
        some mc.1
      else none

/-- Claim C4 amended: the prefix is the pattern with EVERY occurrence of
`/**` and then `/*` removed (the source `replace` calls), first match in
insertion order wins. -/
def resolveImportFirstMatch (p : Policy) (ip : String) : Option String :=
  if ip = "" then none
  else
    p.modules.findSome? fun mc =>
      if mc.2.owns_paths.any
          (fun pat => startswith (stripWildcards pat) (replaceAll ip "." "/")) then
        some mc.1
      else none

/-- Claim C5 wording: first module in insertion order one of whose
`owns_namespaces` prefixes, after collapsing escaped backslashes, is a
literal string prefix of the import namespace. -/
def resolveNamespaceFirstMatch (p : Policy) (ns : String) : Option String :=
  if ns = "" then none
  else
    p.modules.findSome? fun mc =>
      if mc.2.owns_namespaces.any
          (fun q => startswith (replaceAll q "\\\\" "\\") ns) then
        some mc.1
      else none

/-- Claim C2 amended wording of the edge list built for a file owned by
`mid`: one edge per import whose target resolves to a non-empty module id
different from the owner, in import order, never coalesced. -/
def edgeSpec (p : Policy) (mid rp : String) (imports : List ImportRef) : List ModuleEdge :=
  imports.filterMap fun imp =>
    match resolve_import_to_module imp.target (some p) with
    | some t => if t ≠ "" ∧ t ≠ mid then some ⟨mid, t, rp, imp.target⟩ else none
    | none => none

/-! ## Helper lemmas -/

theorem globLoop_eq_any (np : String) (l : List String) :
    globLoop np l = l.any fun pat => fnmatch np (replaceAll pat "\\" "/") := by
  induction l with
  | nil => rfl
  | cons pat rest ih =>
    by_cases h : fnmatch np (replaceAll pat "\\" "/") <;>
      simp [globLoop, h, ih]

theorem resolveLoop_eq_findSome (np : String) (l : List (String × ModuleConfig)) :
    resolveLoop np l = l.findSome? fun mc =>
      if mc.2.owns_paths.any (fun pat => fnmatch np (replaceAll pat "\\" "/")) then
        some mc.1
      else none := by
  induction l with
  | nil => rfl
  | cons mc rest ih =>
    obtain ⟨mid, cfg⟩ := mc
    by_cases h : globLoop np cfg.owns_paths
    · have ha : cfg.owns_paths.any (fun pat => fnmatch np (replaceAll pat "\\" "/")) = true := by
        rw [← globLoop_eq_any]; exact h
      simp [resolveLoop, h, List.findSome?, ha]
    · have ha : cfg.owns_paths.any (fun pat => fnmatch np (replaceAll pat "\\" "/")) = false := by
        rw [← globLoop_eq_any]; exact eq_false_of_ne_true h
      simp [resolveLoop, h, List.findSome?, ha, ih]

theorem stripLoop_eq_any (ip : String) (l : List String) :
    stripLoop ip l = l.any fun pat => startswith (stripWildcards pat) ip := by
  induction l with
  | nil => rfl
  | cons pat rest ih =>
    by_cases h : startswith (stripWildcards pat) ip <;> simp [stripLoop, h, ih]

theorem importLoop_eq_findSome (ip : String) (l : List (String × ModuleConfig)) :
    importLoop ip l = l.findSome? fun mc =>
      if mc.2.owns_paths.any (fun pat => startswith (stripWildcards pat) ip) then
        some mc.1
      else none := by
  induction l with
  | nil => rfl
  | cons mc rest ih =>
    obtain ⟨mid, cfg⟩ := mc
    by_cases h : stripLoop ip cfg.owns_paths
    · have ha : cfg.owns_paths.any (fun pat => startswith (stripWildcards pat) ip) = true := by
        rw [← stripLoop_eq_any]; exact h
      simp [importLoop, h, List.findSome?, ha]
    · have ha : cfg.owns_paths.any (fun pat => startswith (stripWildcards pat) ip) = false := by
        rw [← stripLoop_eq_any]; exact eq_false_of_ne_true h
      simp [importLoop, h, List.findSome?, ha, ih]

theorem nsPatLoop_eq_any (ns : String) (l : List String) :
    nsPatLoop ns l = l.any fun q => startswith (replaceAll q "\\\\" "\\") ns := by
  induction l with
  | nil => rfl
  | cons q rest ih =>
    by_cases h : startswith (replaceAll q "\\\\" "\\") ns <;> simp [nsPatLoop, h, ih]

theorem nsLoop_eq_findSome (ns : String) (l : List (String × ModuleConfig)) :
    nsLoop ns l = l.findSome? fun mc =>
      if mc.2.owns_namespaces.any (fun q => startswith (replaceAll q "\\\\" "\\") ns) then
        some mc.1
      else none := by
  induction l with
  | nil => rfl
  | cons mc rest ih =>
    obtain ⟨mid, cfg⟩ := mc
    by_cases h : nsPatLoop ns cfg.owns_namespaces
    · have ha : cfg.owns_namespaces.any (fun q => startswith (replaceAll q "\\\\" "\\") ns) = true := by
        rw [← nsPatLoop_eq_any]; exact h
      simp [nsLoop, h, List.findSome?, ha]
    · have ha : cfg.owns_namespaces.any (fun q => startswith (replaceAll q "\\\\" "\\") ns) = false := by
        rw [← nsPatLoop_eq_any]; exact eq_false_of_ne_true h
      simp [nsLoop, h, List.findSome?, ha, ih]

theorem edgeLoop_eq_filterMap (res : String → Option String) (mid rp : String)
    (l : List ImportRef) :
    edgeLoop res mid rp l = l.filterMap fun imp =>
      match res imp.target with
      | some t => if t ≠ "" ∧ t ≠ mid then some ⟨mid, t, rp, imp.target⟩ else none
      | none => none := by
  induction l with
  | nil => rfl
  | cons imp rest ih =>
    unfold edgeLoop
    rw [List.filterMap_cons, ih]
    cases h : res imp.target with
    | none => simp
    | some t => by_cases ht : t ≠ "" ∧ t ≠ mid <;> simp [ht]

theorem edgeLoop_from_ne_to (res : String → Option String) (mid rp : String)
    (l : List ImportRef) :
    ((edgeLoop res mid rp l).all fun e => e.from_module != e.to_module) = true := by
  induction l with
  | nil => rfl
  | cons imp rest ih =>
    unfold edgeLoop
    simp only [List.all_append, Bool.and_eq_true]
    refine ⟨?_, ih⟩
    cases h : res imp.target with
    | none => rfl
    | some t =>
      by_cases ht : t ≠ "" ∧ t ≠ mid
      · simp [ht, bne_iff_ne]
        exact fun hc => ht.2 hc.symm
      · simp [ht]

theorem startswith_append_self (a t : String) : startswith a (a ++ t) = true := by
  simp [startswith, String.data_append, List.isPrefixOf_iff_prefix]

theorem py_scan_file_fst_isSome (pol : Option Policy) (rp : String) (inp : PyParse) :
    ((py_scan_file pol rp inp).1).isSome = isParsedOk inp := by
  cases inp with
  | readError => cases pol <;> rfl
  | syntaxError c => cases pol <;> rfl
  | parsed c d i =>
    cases pol with
    | none => rfl
    | some p =>
      simp only [py_scan_file, isParsedOk]
      split
      · rfl
      · split <;> rfl

theorem php_scan_file_fst_isSome (pol : Option Policy) (rp : String) (read : Option String) :
    ((php_scan_file pol rp read).1).isSome = read.isSome := by
  cases read with
  | none => cases pol <;> rfl
  | some content =>
    cases pol with
    | none => rfl
    | some p =>
      simp only [php_scan_file, Option.isSome_some]
      split
      · rfl
      · split <;> rfl

theorem pyScanGo_files_length (pol : Option Policy) (l : List (String × PyParse)) :
    (pyScanGo pol l).files.length = l.countP fun f => isParsedOk f.2 := by
  induction l with
  | nil => rfl
  | cons f rest ih =>
    unfold pyScanGo
    rw [List.countP_cons]
    simp only [List.length_append, ih]
    rw [← py_scan_file_fst_isSome pol f.1 f.2]
    cases hf : (py_scan_file pol f.1 f.2).1 <;> simp [hf]
    all_goals omega

theorem phpScanGo_files_length (pol : Option Policy) (l : List (String × Option String)) :
    (phpScanGo pol l).files.length = l.countP fun f => f.2.isSome := by
  induction l with
  | nil => rfl
  | cons f rest ih =>
    unfold phpScanGo
    rw [List.countP_cons]
    simp only [List.length_append, ih]
    rw [← php_scan_file_fst_isSome pol f.1 f.2]
    cases hf : (php_scan_file pol f.1 f.2).1 <;> simp [hf]
    all_goals omega

theorem mem_insortNoDup {a x : String} {l : List String} (h : x ∈ insortNoDup a l) :
    x = a ∨ x ∈ l := by
  induction l with
  | nil => simpa [insortNoDup] using h
  | cons b t ih =>
    by_cases h1 : a < b
    · simpa [insortNoDup, h1] using h
    · by_cases h2 : a = b
      · simp only [insortNoDup, if_neg h1, if_pos h2] at h
        exact Or.inr h
      · simp only [insortNoDup, if_neg h1, if_neg h2, List.mem_cons] at h
        rcases h with h | h
        · exact Or.inr (by simp [h])
        · rcases ih h with h3 | h3
          · exact Or.inl h3
          · exact Or.inr (List.mem_cons_of_mem b h3)

theorem sorted_insortNoDup (a : String) {l : List String}
    (h : List.Sorted (· < ·) l) : List.Sorted (· < ·) (insortNoDup a l) := by
  induction l with
  | nil => simp [insortNoDup]
  | cons b t ih =>
    obtain ⟨hb, ht⟩ := List.sorted_cons.mp h
    by_cases h1 : a < b
    · rw [insortNoDup, if_pos h1]
      refine List.sorted_cons.mpr ⟨?_, h⟩
      intro x hx
      rcases List.mem_cons.mp hx with hx | hx
      · rw [hx]; exact h1
      · exact lt_trans h1 (hb x hx)
    · by_cases h2 : a = b
      · rw [insortNoDup, if_neg h1, if_pos h2]
        exact h
      · rw [insortNoDup, if_neg h1, if_neg h2]
        have hba : b < a := lt_of_le_of_ne (le_of_not_lt h1) (fun he => h2 he.symm)
        refine List.sorted_cons.mpr ⟨?_, ih ht⟩
        intro x hx
        rcases mem_insortNoDup hx with hx | hx
        · rw [hx]; exact hba
        · exact hb x hx

theorem sortedDedup_sorted (l : List String) : List.Sorted (· < ·) (sortedDedup l) := by
  induction l with
  | nil => simp [sortedDedup]
  | cons a t ih => exact sorted_insortNoDup a ih

theorem sorted_lt_nodup {l : List String} (h : List.Sorted (· < ·) l) : l.Nodup := by
  induction l with
  | nil => simp
  | cons b t ih =>
    obtain ⟨hb, ht⟩ := List.sorted_cons.mp h
    exact List.nodup_cons.mpr ⟨fun hm => lt_irrefl b (hb b hm), ih ht⟩

theorem py_scan_file_warnings (pol : Option Policy) (rp : String) (inp : PyParse) :
    ((py_scan_file pol rp inp).1.toList.all fun fd => fd.warnings.isEmpty) = true := by
  cases inp with
  | readError => cases pol <;> rfl
  | syntaxError c => cases pol <;> rfl
  | parsed c d i =>
    cases pol with
    | none => rfl
    | some p =>
      simp only [py_scan_file]
      split
      · rfl
      · split <;> rfl

theorem php_scan_file_warnings (pol : Option Policy) (rp : String) (read : Option String) :
    ((php_scan_file pol rp read).1.toList.all fun fd => fd.warnings.isEmpty) = true := by
  cases read with
  | none => cases pol <;> rfl
  | some content =>
    cases pol with
    | none => rfl
    | some p =>
      simp only [php_scan_file]
      split
      · rfl
      · split <;> rfl

theorem pyScanGo_warnings (pol : Option Policy) (l : List (String × PyParse)) :
    ((pyScanGo pol l).files.all fun fd => fd.warnings.isEmpty) = true := by
  induction l with
  | nil => rfl
  | cons f rest ih =>
    unfold pyScanGo
    simp only [List.all_append, Bool.and_eq_true]
    exact ⟨py_scan_file_warnings pol f.1 f.2, ih⟩

theorem phpScanGo_warnings (pol : Option Policy) (l : List (String × Option String)) :
    ((phpScanGo pol l).files.all fun fd => fd.warnings.isEmpty) = true := by
  induction l with
  | nil => rfl
  | cons f rest ih =>
    unfold phpScanGo
    simp only [List.all_append, Bool.and_eq_true]
    exact ⟨php_scan_file_warnings pol f.1 f.2, ih⟩

theorem pyScanGo_none_scope (l : List (String × PyParse)) :
    ((pyScanGo none l).files.all fun fd => fd.module_scope.isNone) = true := by
  induction l with
  | nil => rfl
  | cons f rest ih =>
    unfold pyScanGo
    simp only [List.all_append, Bool.and_eq_true]
    refine ⟨?_, ih⟩
    obtain ⟨rp, inp⟩ := f
    cases inp <;> rfl

theorem phpScanGo_none_scope (l : List (String × Option String)) :
    ((phpScanGo none l).files.all fun fd => fd.module_scope.isNone) = true := by
  induction l with
  | nil => rfl
  | cons f rest ih =>
    unfold phpScanGo
    simp only [List.all_append, Bool.and_eq_true]
    refine ⟨?_, ih⟩
    obtain ⟨rp, read⟩ := f
    cases read <;> rfl

theorem pyScanGo_none_edges (l : List (String × PyParse)) :
    (pyScanGo none l).module_edges = [] := by
  induction l with
  | nil => rfl
  | cons f rest ih =>
    unfold pyScanGo
    obtain ⟨rp, inp⟩ := f
    cases inp <;> simpa [py_scan_file] using ih

theorem phpScanGo_none_edges (l : List (String × Option String)) :
    (phpScanGo none l).module_edges = [] := by
  induction l with
  | nil => rfl
  | cons f rest ih =>
    unfold phpScanGo
    obtain ⟨rp, read⟩ := f
    cases read <;> simpa [php_scan_file] using ih

/-! ## Claim theorems -/

/-- Claim C1: ownership resolution is first-match-wins.  For every policy
and file path, `resolve_file_to_module` normalizes the path to forward
slashes, iterates the modules in insertion order and each module's
`owns_paths` patterns in listed order, and returns the first module one of
whose glob patterns matches the normalized path (so when two modules both
match, the one listed first wins); it returns `none` exactly when no
pattern of any module matches. -/
theorem C1_ownership_first_match (p : Policy) (fp : String) :
    resolve_file_to_module (some p) fp = resolveOwnerFirstMatch p fp ∧
      (resolve_file_to_module (some p) fp = none ↔
        ∀ mc ∈ p.modules, ∀ pat ∈ mc.2.owns_paths,
          fnmatch (replaceAll fp "\\" "/") (replaceAll pat "\\" "/") = false) := by
  have h1 : resolve_file_to_module (some p) fp = resolveOwnerFirstMatch p fp := by
    show resolveLoop (replaceAll fp "\\" "/") p.modules = _
    rw [resolveLoop_eq_findSome]
    rfl
  refine ⟨h1, ?_⟩
  rw [h1]
  unfold resolveOwnerFirstMatch
  rw [List.findSome?_eq_none_iff]
  constructor
  · intro h mc hmc pat hpat
    have hmc2 := h mc hmc
    by_cases ha : mc.2.owns_paths.any
        (fun q => fnmatch (replaceAll fp "\\" "/") (replaceAll q "\\" "/")) = true
    · rw [if_pos ha] at hmc2; cases hmc2
    · have := List.any_eq_false.mp (eq_false_of_ne_true ha) pat hpat
      simpa using this
  · intro h mc hmc
    have ha : mc.2.owns_paths.any
        (fun q => fnmatch (replaceAll fp "\\" "/") (replaceAll q "\\" "/")) = false := by
      rw [List.any_eq_false]
      intro pat hpat
      simp [h mc hmc pat hpat]
    rw [ha]
    rfl

/-- Claim C4 counterexample: the wording says each `owns_paths` glob is
stripped of TRAILING wildcard suffixes to a literal prefix, but the source
removes every occurrence of `/**` and `/*`.  With the single module `m`
owning `a/**/b`, the import `a.b` rewrites to `a/b`; the code strips the
pattern to `a/b` and resolves to `m`, while the claimed algorithm keeps the
prefix `a/**/b` and resolves to nothing. -/
theorem C4_import_counterexample :
    resolve_import_to_module "a.b" (some ⟨[("m", ⟨["a/**/b"], []⟩)]⟩) = some "m" ∧
      resolveImportClaimed ⟨[("m", ⟨["a/**/b"], []⟩)]⟩ "a.b" = none := by
  constructor <;> rfl

/-- Claim C4 amended: `resolve_import_to_module` returns `none` on an
empty import string or an absent policy; otherwise it rewrites dots to slashes,
removes EVERY occurrence of `/**` and then `/*` from each `owns_paths`
pattern to obtain a literal prefix, and returns the first module (insertion
order, patterns in listed order) whose prefix is a literal string prefix of
the rewritten import; `none` when no module qualifies. -/
theorem C4_import_resolution_amended (p : Policy) (ip : String) :
    resolve_import_to_module ip (some p) = resolveImportFirstMatch p ip ∧
      resolve_import_to_module ip none = none ∧
      resolve_import_to_module "" (some p) = none := by
  refine ⟨?_, ?_, rfl⟩
  · unfold resolve_import_to_module resolveImportFirstMatch
    by_cases h : ip = ""
    · rw [if_pos h, if_pos h]
    · rw [if_neg h, if_neg h]
      show importLoop (replaceAll ip "." "/") p.modules = _
      rw [importLoop_eq_findSome]
  · unfold resolve_import_to_module
    by_cases h : ip = ""
    · rw [if_pos h]
    · rw [if_neg h]

/-- Claim C5: `resolve_namespace_to_module` returns `none` on an empty
namespace or an absent policy; otherwise it returns the first module in
insertion order one of whose `owns_namespaces` prefixes, with escaped double
backslashes collapsed, is a literal string prefix of the namespace; `none`
when no module qualifies. -/
theorem C5_namespace_first_match (p : Policy) (ns : String) :
    resolve_namespace_to_module ns (some p) = resolveNamespaceFirstMatch p ns ∧
      resolve_namespace_to_module ns none = none ∧
      resolve_namespace_to_module "" (some p) = none := by
  refine ⟨?_, ?_, rfl⟩
  · unfold resolve_namespace_to_module resolveNamespaceFirstMatch
    by_cases h : ns = ""
    · rw [if_pos h, if_pos h]
    · rw [if_neg h, if_neg h]
      show nsLoop ns p.modules = _
      rw [nsLoop_eq_findSome]
  · unfold resolve_namespace_to_module
    by_cases h : ns = ""
    · rw [if_pos h]
    · rw [if_neg h]

/-- Claim C2 counterexample: an import whose target resolves to a module
different from the owner can still yield no edge.  The policy has modules
`m` (owning `m/*`) and `""` (owning `x/*`); file `m/f.py` is owned by `m`,
and its import `x.y` resolves to module `""`, which differs from `m` — yet
the scan appends no edge, because the source guards with Python truthiness
(`if target_module_id and ...`) and the empty module id is falsy. -/
theorem C2_edge_counterexample :
    resolve_file_to_module (some ⟨[("m", ⟨["m/*"], []⟩), ("", ⟨["x/*"], []⟩)]⟩) "m/f.py" =
        some "m" ∧
      resolve_import_to_module "x.y"
          (some ⟨[("m", ⟨["m/*"], []⟩), ("", ⟨["x/*"], []⟩)]⟩) = some "" ∧
      ("" : String) ≠ "m" ∧
      (py_scan_file (some ⟨[("m", ⟨["m/*"], []⟩), ("", ⟨["x/*"], []⟩)]⟩) "m/f.py"
          (PyParse.parsed "" [] [⟨"x.y", none⟩])).2 = [] := by
  refine ⟨rfl, rfl, ?_, rfl⟩
  decide

/-- Claim C2 amended: for a parsed file whose owner resolves to a non-empty
module id, exactly one edge is appended per import whose target resolves to
a NON-EMPTY module id different from the owner (one edge per occurrence,
in import order, never coalesced); when the owner is unresolved or resolves to
the empty id, no edges are built; and every emitted edge has distinct
`from_module` and `to_module`. -/
theorem C2_edge_construction_amended (p : Policy) (rp content : String)
    (decls : List PyDecl) (imports : List ImportRef) :
    (py_scan_file (some p) rp (PyParse.parsed content decls imports)).2 =
        (match resolve_file_to_module (some p) rp with
         | none => []
         | some mid => if mid = "" then [] else edgeSpec p mid rp imports) ∧
      ((py_scan_file (some p) rp (PyParse.parsed content decls imports)).2.all
        fun e => e.from_module != e.to_module) = true := by
  constructor
  · simp only [py_scan_file]
    cases h : resolve_file_to_module (some p) rp with
    | none => rfl
    | some mid =>
      by_cases hm : mid = ""
      · simp [hm]
      · simp only [if_neg hm]
        unfold edgeSpec
        exact edgeLoop_eq_filterMap _ mid rp imports
  · simp only [py_scan_file]
    cases h : resolve_file_to_module (some p) rp with
    | none => rfl
    | some mid =>
      by_cases hm : mid = ""
      · simp [hm]
      · simp only [if_neg hm]
        exact edgeLoop_from_ne_to _ mid rp imports

/-- Claim C3 counterexample: `module_scope` can be absent even though a
policy was supplied and an ownership rule matched.  The policy's only module
has the empty string as id and owns `*`; the rule matches `a.py`, but the
source guards the scope write with Python truthiness (`if module_id:`), so
the record is emitted without `module_scope`. -/
theorem C3_scope_counterexample :
    fnmatch "a.py" "*" = true ∧
      Option.map (fun fd => fd.module_scope)
          (py_scan_file (some ⟨[("", ⟨["*"], []⟩)]⟩) "a.py"
            (PyParse.parsed "" [] [])).1 = some none := by
  constructor <;> rfl

/-- Claim C3 amended: a scanned file's `module_scope` equals the owner
resolved by the policy when that resolution yields a NON-EMPTY module id,
and is absent when resolution fails or yields the empty id (both scanners);
and when no policy is supplied, no file record carries a `module_scope` and
the report's `module_edges` list is empty (both scanners). -/
theorem C3_module_scope_amended (p : Policy) (rp content : String) (decls : List PyDecl)
    (imports : List ImportRef) (phpContent : String)
    (pyInputs : List (String × PyParse)) (phpInputs : List (String × Option String)) :
    Option.map (fun fd => fd.module_scope)
        (py_scan_file (some p) rp (PyParse.parsed content decls imports)).1 =
      some (match resolve_file_to_module (some p) rp with
            | none => none
            | some mid => if mid = "" then none else some mid) ∧
    Option.map (fun fd => fd.module_scope) (php_scan_file (some p) rp (some phpContent)).1 =
      some (match resolve_file_to_module (some p) rp with
            | none => none
            | some mid => if mid = "" then none else some mid) ∧
    ((pyScan none pyInputs).files.all fun fd => fd.module_scope.isNone) = true ∧
    (pyScan none pyInputs).module_edges = [] ∧
    ((phpScan none phpInputs).files.all fun fd => fd.module_scope.isNone) = true ∧
    (phpScan none phpInputs).module_edges = [] := by
  refine ⟨?_, ?_, pyScanGo_none_scope pyInputs, pyScanGo_none_edges pyInputs,
    phpScanGo_none_scope phpInputs, phpScanGo_none_edges phpInputs⟩
  · simp only [py_scan_file]
    cases h : resolve_file_to_module (some p) rp with
    | none => rfl
    | some mid =>
      by_cases hm : mid = ""
      · simp [hm]
      · simp [if_neg hm]
  · simp only [php_scan_file]
    cases h : resolve_file_to_module (some p) rp with
    | none => rfl
    | some mid =>
      by_cases hm : mid = ""
      · simp [hm]
      · simp [if_neg hm]

/-- Claim C6 counterexample: for a policy path that does not exist
(`os.path.exists` is false), the constructor skips the load silently — no
warning is printed — contradicting the claim that a warning is surfaced for
an absent policy path. -/
theorem C6_policy_counterexample :
    load_policy PolicyInput.missing = (none, 0) ∧
      ¬(1 ≤ (load_policy PolicyInput.missing).2) := by
  exact ⟨rfl, by decide⟩

/-- Claim C6 amended: a missing or malformed policy document is non-fatal.
An unreadable or JSON-invalid policy file surfaces exactly one warning; an
absent path is skipped silently (no warning).  In every such case the
loaded policy stays absent, so resolution is disabled for the whole run (no
`module_scope` on any file, no edges), and the scan still completes,
emitting one fact record per readable and parsable file. -/
theorem C6_policy_failure_amended (pyInputs : List (String × PyParse))
    (phpInputs : List (String × Option String)) :
    load_policy PolicyInput.unreadable = (none, 1) ∧
    load_policy PolicyInput.malformed = (none, 1) ∧
    load_policy PolicyInput.missing = (none, 0) ∧
    load_policy PolicyInput.noPath = (none, 0) ∧
    (pyScan none pyInputs).files.length = (pyInputs.countP fun f => isParsedOk f.2) ∧
    ((pyScan none pyInputs).files.all fun fd => fd.module_scope.isNone) = true ∧
    (pyScan none pyInputs).module_edges = [] ∧
    (phpScan none phpInputs).files.length = (phpInputs.countP fun f => f.2.isSome) ∧
    ((phpScan none phpInputs).files.all fun fd => fd.module_scope.isNone) = true ∧
    (phpScan none phpInputs).module_edges = [] :=
  ⟨rfl, rfl, rfl, rfl, pyScanGo_files_length none pyInputs, pyScanGo_none_scope pyInputs,
    pyScanGo_none_edges pyInputs, phpScanGo_files_length none phpInputs,
    phpScanGo_none_scope phpInputs, phpScanGo_none_edges phpInputs⟩

/-- Claim C7: a file the extractor cannot parse is skipped entirely.  For
either scanner, with any policy, a scan over files of which exactly one is
unreadable or unparsable and the rest are valid yields exactly N-1 fact
records for N files, with no fatal error (the scan is a total function). -/
theorem C7_unparsable_file_skipped :
    (∀ (pol : Option Policy) (pre post : List (String × PyParse)) (bp : String)
        (bad : PyParse),
        isParsedOk bad = false →
        (∀ f ∈ pre ++ post, isParsedOk f.2 = true) →
        (pyScan pol (pre ++ (bp, bad) :: post)).files.length =
          (pre ++ (bp, bad) :: post).length - 1) ∧
    (∀ (pol : Option Policy) (pre post : List (String × Option String)) (bp : String),
        (∀ f ∈ pre ++ post, f.2.isSome = true) →
        (phpScan pol (pre ++ (bp, (none : Option String)) :: post)).files.length =
          (pre ++ (bp, (none : Option String)) :: post).length - 1) := by
  constructor
  · intro pol pre post bp bad hbad hgood
    unfold pyScan
    rw [pyScanGo_files_length]
    rw [List.countP_append, List.countP_cons]
    have hpre : (pre.countP fun f => isParsedOk f.2) = pre.length :=
      List.countP_eq_length.mpr fun f hf => hgood f (List.mem_append_left _ hf)
    have hpost : (post.countP fun f => isParsedOk f.2) = post.length :=
      List.countP_eq_length.mpr fun f hf => hgood f (List.mem_append_right _ hf)
    rw [hpre, hpost]
    simp only [hbad]
    simp [List.length_append]
  · intro pol pre post bp hgood
    unfold phpScan
    rw [phpScanGo_files_length]
    rw [List.countP_append, List.countP_cons]
    have hpre : (pre.countP fun f => f.2.isSome) = pre.length :=
      List.countP_eq_length.mpr fun f hf => hgood f (List.mem_append_left _ hf)
    have hpost : (post.countP fun f => f.2.isSome) = post.length :=
      List.countP_eq_length.mpr fun f hf => hgood f (List.mem_append_right _ hf)
    rw [hpre, hpost]
    simp [List.length_append]

/-- Witness for C7: among three Python files, the middle one unreadable,
exactly two fact records are emitted; likewise for three PHP files. -/
theorem C7_unparsable_file_skipped_witness :
    (pyScan none ([("a.py", PyParse.parsed "" [] [])] ++
        ("b.py", PyParse.readError) :: [("c.py", PyParse.parsed "" [] [])])).files.length =
      ([("a.py", PyParse.parsed "" [] [])] ++
        ("b.py", PyParse.readError) :: [("c.py", PyParse.parsed "" [] [])]).length - 1 ∧
    (phpScan none ([("a.php", some "")] ++
        ("b.php", (none : Option String)) :: [("c.php", some "")])).files.length =
      ([("a.php", some "")] ++
        ("b.php", (none : Option String)) :: [("c.php", some "")]).length - 1 := by
  constructor
  · exact C7_unparsable_file_skipped.1 none [("a.py", PyParse.parsed "" [] [])]
      [("c.py", PyParse.parsed "" [] [])] "b.py" PyParse.readError rfl (by decide)
  · exact C7_unparsable_file_skipped.2 none [("a.php", some "")]
      [("c.php", some "")] "b.php" (by decide)

/-- Claim C8: for every input content, the `feature_flags` and `permissions`
lists produced by either scanner are strictly sorted in ascending
lexicographic order (Python string order, i.e. by code point) and therefore
contain no duplicates, even when the content repeats an identifier. -/
theorem C8_flags_permissions_sorted_dedup (content : String) :
    List.Sorted (· < ·) (extract_feature_flags content) ∧
      (extract_feature_flags content).Nodup ∧
      List.Sorted (· < ·) (extract_permissions content) ∧
      (extract_permissions content).Nodup ∧
      List.Sorted (· < ·) (php_extract_feature_flags content) ∧
      (php_extract_feature_flags content).Nodup ∧
      List.Sorted (· < ·) (php_extract_permissions content) ∧
      (php_extract_permissions content).Nodup := by
  refine ⟨sortedDedup_sorted _, sorted_lt_nodup (sortedDedup_sorted _),
    sortedDedup_sorted _, sorted_lt_nodup (sortedDedup_sorted _),
    sortedDedup_sorted _, sorted_lt_nodup (sortedDedup_sorted _),
    sortedDedup_sorted _, sorted_lt_nodup (sortedDedup_sorted _)⟩

/-- Claim C9 (implicit): every file record in every report of either
scanner has an empty warnings list — `warnings` is initialized to `[]` and
no code path ever appends to it. -/
theorem C9_warnings_always_empty (pol : Option Policy) (pyInputs : List (String × PyParse))
    (phpInputs : List (String × Option String)) :
    ((pyScan pol pyInputs).files.all fun fd => fd.warnings.isEmpty) = true ∧
      ((phpScan pol phpInputs).files.all fun fd => fd.warnings.isEmpty) = true :=
  ⟨pyScanGo_warnings pol pyInputs, phpScanGo_warnings pol phpInputs⟩

/-- Claim C10 (implicit): dependency-resolution prefix matching is not
path-segment-aware.  For either resolver, whenever the rewritten import (or
namespace) extends a module's stripped prefix by ARBITRARY trailing
characters — no separator required — and no earlier module in insertion
order has a matching prefix, the resolver returns that module. -/
theorem C10_prefix_match_not_segment_aware :
    (∀ (p1 p2 : List (String × ModuleConfig)) (mid : String) (cfg : ModuleConfig)
        (pat ip suffix : String),
        pat ∈ cfg.owns_paths →
        replaceAll ip "." "/" = stripWildcards pat ++ suffix →
        ip ≠ "" →
        (∀ mc ∈ p1, ∀ q ∈ mc.2.owns_paths,
          startswith (stripWildcards q) (replaceAll ip "." "/") = false) →
        resolve_import_to_module ip (some ⟨p1 ++ (mid, cfg) :: p2⟩) = some mid) ∧
    (∀ (p1 p2 : List (String × ModuleConfig)) (mid : String) (cfg : ModuleConfig)
        (q ns suffix : String),
        q ∈ cfg.owns_namespaces →
        ns = replaceAll q "\\\\" "\\" ++ suffix →
        ns ≠ "" →
        (∀ mc ∈ p1, ∀ r ∈ mc.2.owns_namespaces,
          startswith (replaceAll r "\\\\" "\\") ns = false) →
        resolve_namespace_to_module ns (some ⟨p1 ++ (mid, cfg) :: p2⟩) = some mid) := by
  constructor
  · intro p1 p2 mid cfg pat ip suffix hpat heq hip hearlier
    unfold resolve_import_to_module
    rw [if_neg hip]
    show importLoop (replaceAll ip "." "/") (p1 ++ (mid, cfg) :: p2) = some mid
    induction p1 with
    | nil =>
      rw [List.nil_append, importLoop]
      have hs : stripLoop (replaceAll ip "." "/") cfg.owns_paths = true := by
        rw [stripLoop_eq_any]
        refine List.any_eq_true.mpr ⟨pat, hpat, ?_⟩
        rw [heq]
        exact startswith_append_self _ _
      rw [hs]
      rfl
    | cons mc rest ih =>
      rw [List.cons_append]
      obtain ⟨m0, c0⟩ := mc
      rw [importLoop]
      have hfail : stripLoop (replaceAll ip "." "/") c0.owns_paths = false := by
        rw [stripLoop_eq_any, List.any_eq_false]
        intro q hq
        have := hearlier (m0, c0) (List.mem_cons_self _ _) q hq
        simp [this]
      rw [hfail]
      simp only [Bool.false_eq_true, if_false]
      exact ih fun mc hmc => hearlier mc (List.mem_cons_of_mem _ hmc)
  · intro p1 p2 mid cfg q ns suffix hq heq hns hearlier
    unfold resolve_namespace_to_module
    rw [if_neg hns]
    show nsLoop ns (p1 ++ (mid, cfg) :: p2) = some mid
    induction p1 with
    | nil =>
      rw [List.nil_append, nsLoop]
      have hs : nsPatLoop ns cfg.owns_namespaces = true := by
        rw [nsPatLoop_eq_any]
        refine List.any_eq_true.mpr ⟨q, hq, ?_⟩
        rw [heq]
        exact startswith_append_self _ _
      rw [hs]
      rfl
    | cons mc rest ih =>
      rw [List.cons_append]
      obtain ⟨m0, c0⟩ := mc
      rw [nsLoop]
      have hfail : nsPatLoop ns c0.owns_namespaces = false := by
        rw [nsPatLoop_eq_any, List.any_eq_false]
        intro r hr
        have := hearlier (m0, c0) (List.mem_cons_self _ _) r hr
        simp [this]
      rw [hfail]
      simp only [Bool.false_eq_true, if_false]
      exact ih fun mc hmc => hearlier mc (List.mem_cons_of_mem _ hmc)

/-- Witness for C10: the import `services.authx` resolves to the module
owning `services/auth/**` even though `authx` only extends `auth` inside a
segment; likewise `App\AuthExtra` resolves to the module owning the
namespace prefix `App\Auth`. -/
theorem C10_prefix_match_not_segment_aware_witness :
    resolve_import_to_module "services.authx"
        (some ⟨[("m", ⟨["services/auth/**"], []⟩)]⟩) = some "m" ∧
      resolve_namespace_to_module "App\\AuthExtra"
        (some ⟨[("n", ⟨[], ["App\\Auth"]⟩)]⟩) = some "n" := by
  constructor
  · exact C10_prefix_match_not_segment_aware.1 [] [] "m" ⟨["services/auth/**"], []⟩
      "services/auth/**" "services.authx" "x" (by simp) (by decide) (by decide)
      (by intro mc hmc; cases hmc)
  · exact C10_prefix_match_not_segment_aware.2 [] [] "n" ⟨[], ["App\\Auth"]⟩
      "App\\Auth" "App\\AuthExtra" "Extra" (by simp) (by decide) (by decide)
      (by intro mc hmc; cases hmc)
